import Mathlib

/-!
Verification of the value-marshalling boundary of the glsp engine
(src/glsp-engine/src/wrap.rs): value conversion (IntoVal / FromVal),
argument extraction (FromArg), the arity calculator, the function
wrapper, and the IntoCallArgs adapters.

The dynamic value type is modelled by a single inductive `Val`; the
source keeps two parallel representations (`Val`, rooted, and `Slot`,
heap-internal) whose conversion impls are line-for-line parallel, so one
type stands for both.  Machine integers are modelled as `Int` with
explicit range conditions; the runtime integer is an i32.  Floats are
modelled abstractly: `F32` is an opaque bit pattern and `F64` is an
`F32` approximation together with the extra precision bits that the
`as f32` cast discards; no claim here needs float arithmetic.
-/

/-- The 32-bit float of the runtime, modelled as an opaque bit pattern. -/
structure F32 where
  bits : Nat
deriving DecidableEq

/-- A native 64-bit float, modelled as its nearest `F32` plus the extra
precision that the narrowing cast `as f32` discards. -/
structure F64 where
  approx : F32
  extraPrecision : Nat
deriving DecidableEq

/-- The narrowing cast `self as f32` from the source: keep the `F32`
approximation, drop the extra precision. -/
def F64.toF32 (x : F64) : F32 :=
  x.approx

/-- The widening cast `f as f64` from the source: exact, no extra bits. -/
def F32.toF64 (f : F32) : F64 :=
  ⟨f, 0⟩

/-- An interned symbol (`Sym` in the source), identified by its id. -/
structure GSym where
  id : Nat
deriving DecidableEq

/-- The dynamic value type of the runtime (`Val` / `Slot` in the source):
a closed tagged union.  Only the variants exercised by the conversion
impls under verification are included; `Tab` carries its entries in
iteration order. -/
inductive Val where
  | Nil : Val
  | Int : Int → Val
  | Flo : F32 → Val
  | Char : Char → Val
  | Bool : Bool → Val
  | Sym : GSym → Val
  | Tab : List (Val × Val) → Val

/-- The source of a wrapped foreign error: the type name reported by
`type_name` and the payload of the original error value. -/
structure ErrSource where
  typeName : String
  payload : String
deriving DecidableEq

/-- The runtime error type `GError`: a message (the source builds it with
the `bail!` and `error!` macros) plus an optional foreign source error
attached by `with_source`. -/
structure GError where
  msg : String
  source : Option ErrSource
deriving DecidableEq

/-- `GResult` from the source. -/
abbrev GResult (α : Type) := Except GError α

/-- Modelled from the spec: `a_type_name` lives in the value module of
the engine, which is not among the given sources; it names the dynamic
type of a value for type-mismatch messages. -/
def aTypeName : Val → String
  | .Nil => "a nil"
  | .Int _ => "an int"
  | .Flo _ => "a flo"
  | .Char _ => "a char"
  | .Bool _ => "a bool"
  | .Sym _ => "a sym"
  | .Tab _ => "a table"

/-- `ArgType` from the source: the kind of one wrapped parameter. -/
inductive ArgType where
  | RGlobal : ArgType
  | Normal : ArgType
  | Option : ArgType
  | Rest : ArgType
deriving DecidableEq

/-- `usize::MAX` on a 64-bit target: the sentinel that `arg_limits_fn`
stores as the maximum when a `Rest` parameter makes the arity unbounded. -/
def usizeMax : Nat := 2 ^ 64 - 1

/-- The loop body of `arg_limits_fn` (wrap.rs): walks the parameter kind
list carrying `required_args`, `optional_args` and `seen_rest`, exactly
as the macro-generated `const fn` does. -/
def argLimitsGo : List ArgType → Nat → Nat → Bool → Except String (Nat × Nat)
  | [], requiredArgs, optionalArgs, seenRest =>
    .ok (requiredArgs, if seenRest then usizeMax else requiredArgs + optionalArgs)
  | a :: rest, requiredArgs, optionalArgs, seenRest =>
    match a with
    | .Normal =>
      if seenRest then
        .error "Rest<T> followed by a normal argument"
      else
        argLimitsGo rest (requiredArgs + optionalArgs + 1) 0 seenRest
    | .Option =>
      if seenRest then
        .error "Rest<T> followed by an Option<T> argument"
      else
        argLimitsGo rest requiredArgs (optionalArgs + 1) seenRest
    | .Rest =>
      argLimitsGo rest requiredArgs optionalArgs true
    | .RGlobal =>
      argLimitsGo rest requiredArgs optionalArgs seenRest

/-- `arg_limits_fn` / `calculate_arg_limits` from the source: the arity
bounds of a wrapped function, or a construction-time error for an
illegal ordering. -/
def calculateArgLimits (args : List ArgType) : Except String (Nat × Nat) :=
  argLimitsGo args 0 0 false


/-- The i32 minimum, the lower bound of the runtime integer. -/
def i32Min : Int := -2147483648

/-- The i32 maximum, the upper bound of the runtime integer. -/
def i32Max : Int := 2147483647

/-- `impl_into_val_infallible` for the integer types i8, i16, i32, u8 and
u16: `Ok(Val::Int(self.into()))` — an infallible widening into the
runtime integer. -/
def smallIntIntoVal (x : Int) : GResult Val :=
  .ok (Val.Int x)

/-- `impl_into_val_infallible` for `char`. -/
def charIntoVal (c : Char) : GResult Val :=
  .ok (Val.Char c)

/-- `impl_into_val_infallible` for `bool`. -/
def boolIntoVal (b : Bool) : GResult Val :=
  .ok (Val.Bool b)

/-- `impl_into_val_infallible` for `Sym`. -/
def symIntoVal (s : GSym) : GResult Val :=
  .ok (Val.Sym s)

/-- `impl_into_val_infallible` for `f32`. -/
def f32IntoVal (f : F32) : GResult Val :=
  .ok (Val.Flo f)

/-- The out-of-range message of `impl_into_val_bounded_int`. -/
def intoValRangeMsg (x : Int) : String :=
  "the result was " ++ toString x ++ ", which is outside the range of an i32"

/-- `impl_into_val_bounded_int` for i64, i128, isize, u32, u64, u128 and
usize: `self.try_into()` into an i32, an error when out of range.  The
macro-generated bodies are identical across these types; their differing
native domains are the range conditions of the theorems that use this. -/
def boundedIntIntoVal (x : Int) : GResult Val :=
  if i32Min ≤ x ∧ x ≤ i32Max then
    .ok (Val.Int x)
  else
    .error ⟨intoValRangeMsg x, none⟩

/-- `impl IntoVal for f64`: `Ok(Val::Flo(self as f32))` — the one
intentionally truncating conversion. -/
def f64IntoVal (x : F64) : GResult Val :=
  .ok (Val.Flo x.toF32)

/-- `impl_from_val_infallible` for the integer types i32, i64, i128 and
isize: match on the `Int` variant, widen with `as`, otherwise a
type-mismatch error. -/
def fromValIntWiden (tyName : String) (v : Val) : GResult Int :=
  match v with
  | .Int i => .ok i
  | v => .error ⟨"expected " ++ tyName ++ ", received " ++ aTypeName v, none⟩

/-- `impl_from_val_int_fallible_small` for i8, i16, u8 and u16: accept an
`Int` within the bounds of the target type, reject an out-of-range `Int`
with a message carrying the value, reject any other variant with a
type-mismatch message. -/
def fromValIntRange (tyName : String) (lo hi : Int) (v : Val) : GResult Int :=
  match v with
  | .Int i =>
    if lo ≤ i ∧ i ≤ hi then
      .ok i
    else
      .error ⟨"expected " ++ tyName ++ ", received an int with value " ++ toString i, none⟩
  | v => .error ⟨"expected " ++ tyName ++ ", received " ++ aTypeName v, none⟩

/-- `impl_from_val_int_fallible_large` for u32, u64, u128 and usize:
accept a non-negative `Int`, reject a negative one with a message
carrying the value, reject any other variant with a type-mismatch
message. -/
def fromValIntNonNeg (tyName : String) (v : Val) : GResult Int :=
  match v with
  | .Int i =>
    if 0 ≤ i then
      .ok i
    else
      .error ⟨"expected " ++ tyName ++ ", received an int with value " ++ toString i, none⟩
  | v => .error ⟨"expected " ++ tyName ++ ", received " ++ aTypeName v, none⟩

/-- `FromVal for i32` (from `impl_from_val_infallible`). -/
def i32FromVal : Val → GResult Int := fromValIntWiden "i32"

/-- `FromVal for i64` (from `impl_from_val_infallible`). -/
def i64FromVal : Val → GResult Int := fromValIntWiden "i64"

/-- `FromVal for i128` (from `impl_from_val_infallible`). -/
def i128FromVal : Val → GResult Int := fromValIntWiden "i128"

/-- `FromVal for isize` (from `impl_from_val_infallible`). -/
def isizeFromVal : Val → GResult Int := fromValIntWiden "isize"

/-- `FromVal for i8` (from `impl_from_val_int_fallible_small`). -/
def i8FromVal : Val → GResult Int := fromValIntRange "i8" (-128) 127

/-- `FromVal for i16` (from `impl_from_val_int_fallible_small`). -/
def i16FromVal : Val → GResult Int := fromValIntRange "i16" (-32768) 32767

/-- `FromVal for u8` (from `impl_from_val_int_fallible_small`). -/
def u8FromVal : Val → GResult Int := fromValIntRange "u8" 0 255

/-- `FromVal for u16` (from `impl_from_val_int_fallible_small`). -/
def u16FromVal : Val → GResult Int := fromValIntRange "u16" 0 65535

/-- `FromVal for u32` (from `impl_from_val_int_fallible_large`). -/
def u32FromVal : Val → GResult Int := fromValIntNonNeg "u32"

/-- `FromVal for u64` (from `impl_from_val_int_fallible_large`). -/
def u64FromVal : Val → GResult Int := fromValIntNonNeg "u64"

/-- `FromVal for u128` (from `impl_from_val_int_fallible_large`). -/
def u128FromVal : Val → GResult Int := fromValIntNonNeg "u128"

/-- `FromVal for usize` (from `impl_from_val_int_fallible_large`). -/
def usizeFromVal : Val → GResult Int := fromValIntNonNeg "usize"

/-- `impl_from_val_infallible` for `char`. -/
def charFromVal (v : Val) : GResult Char :=
  match v with
  | .Char c => .ok c
  | v => .error ⟨"expected char, received " ++ aTypeName v, none⟩

/-- `impl_from_val_infallible` for `bool`. -/
def boolFromVal (v : Val) : GResult Bool :=
  match v with
  | .Bool b => .ok b
  | v => .error ⟨"expected bool, received " ++ aTypeName v, none⟩

/-- `impl_from_val_infallible` for `Sym`. -/
def symFromVal (v : Val) : GResult GSym :=
  match v with
  | .Sym s => .ok s
  | v => .error ⟨"expected Sym, received " ++ aTypeName v, none⟩

/-- `impl FromVal for f32`: accept only the `Flo` variant. -/
def f32FromVal (v : Val) : GResult F32 :=
  match v with
  | .Flo f => .ok f
  | v => .error ⟨"expected f32, received " ++ aTypeName v, none⟩

/-- `impl FromVal for f64`: accept only the `Flo` variant, widened with
`f as f64`. -/
def f64FromVal (v : Val) : GResult F64 :=
  match v with
  | .Flo f => .ok f.toF64
  | v => .error ⟨"expected f64, received " ++ aTypeName v, none⟩

/-- The error type of a native `Result` return, as the dynamic check in
`impl IntoVal for Result` distinguishes it: either an instance of the
runtime error type `GError` itself, or some foreign error type with a
`type_name` and a payload. -/
inductive HostErr where
  | g : GError → HostErr
  | foreign : String → String → HostErr
deriving DecidableEq

/-- `impl IntoVal for Result`: an `Ok` delegates to the inner conversion;
an `Err` that is already a `GError` is downcast and propagated unchanged;
any other error is wrapped by `error!("IntoVal encountered ...",
type_name::E).with_source(err)`. -/
def resultIntoVal {α : Type} (innerIntoVal : α → GResult Val) :
    Except HostErr α → GResult Val
  | .ok src => innerIntoVal src
  | .error (.g gErr) => .error gErr
  | .error (.foreign tyName payload) =>
    .error ⟨"IntoVal encountered " ++ tyName, some ⟨tyName, payload⟩⟩

/-- The entry loop shared by `impl FromVal for HashMap` and
`impl FromVal for BTreeMap`: walk the table entries in iteration order,
convert each key and value with `from_slot`, and fail with the dedicated
duplicate message when `insert` reports that the native key was already
present (modelled as a membership test on the accumulated entries). -/
def mapFromSlots {κ ν : Type} [DecidableEq κ]
    (keyFromSlot : Val → GResult κ) (valueFromSlot : Val → GResult ν)
    (dupMsg : String) :
    List (Val × Val) → List (κ × ν) → GResult (List (κ × ν))
  | [], acc => .ok acc
  | (keySlot, valueSlot) :: rest, acc => do
    let key ← keyFromSlot keySlot
    let value ← valueFromSlot valueSlot
    if (acc.find? (fun p => p.1 == key)).isSome then
      .error ⟨dupMsg, none⟩
    else
      mapFromSlots keyFromSlot valueFromSlot dupMsg rest (acc ++ [(key, value)])

/-- `impl FromVal for HashMap`: accept only a `Tab`, convert its entries,
reject duplicate native keys.  The native map is modelled as the list of
its entries in insertion order. -/
def hashMapFromVal {κ ν : Type} [DecidableEq κ]
    (keyFromSlot : Val → GResult κ) (valueFromSlot : Val → GResult ν)
    (v : Val) : GResult (List (κ × ν)) :=
  match v with
  | .Tab entries => mapFromSlots keyFromSlot valueFromSlot
      "duplicate key in HashMap argument" entries []
  | v => .error ⟨"expected a HashMap, received " ++ aTypeName v, none⟩

/-- `impl FromVal for BTreeMap`: identical walk, its own messages. -/
def btreeMapFromVal {κ ν : Type} [DecidableEq κ]
    (keyFromSlot : Val → GResult κ) (valueFromSlot : Val → GResult ν)
    (v : Val) : GResult (List (κ × ν)) :=
  match v with
  | .Tab entries => mapFromSlots keyFromSlot valueFromSlot
      "duplicate key in BTreeMap argument" entries []
  | v => .error ⟨"expected a BTreeMap, received " ++ aTypeName v, none⟩

/-- The loop of `IntoCallArgs for slices` (also reached by the fixed
array and `Rest` impls): `dst.extend(self.iter().map(...))` with a
mutable `result` that keeps only the first conversion error, pushing
`Slot::Nil` for a failing element.  Returns the slots pushed into `dst`
together with the final `result`. -/
def sliceIntoCallArgsGo {α : Type} (intoSlot : α → GResult Val) :
    List α → Except GError Unit → List Val × Except GError Unit
  | [], result => ([], result)
  | x :: rest, result =>
    match intoSlot x with
    | .ok slot =>
      let r := sliceIntoCallArgsGo intoSlot rest result
      (slot :: r.1, r.2)
    | .error err =>
      let newResult : Except GError Unit :=
        match result with
        | .ok _ => .error err
        | r => r
      let r := sliceIntoCallArgsGo intoSlot rest newResult
      (Val.Nil :: r.1, r.2)

/-- `into_call_args` of the slice impl, started with `Ok(())`. -/
def sliceIntoCallArgs {α : Type} (intoSlot : α → GResult Val) (xs : List α) :
    List Val × Except GError Unit :=
  sliceIntoCallArgsGo intoSlot xs (.ok ())

/-- `into_call_args` of `impl_into_call_args_tuple`: the array literal
`[ self.0.into_slot()?, ... ]` evaluates the element conversions in
order and returns at the first error, before `dst.extend` runs; on
success every slot is pushed.  The heterogeneous tuple is modelled by
the ordered list of its element conversion results. -/
def tupleIntoCallArgs : List (GResult Val) → List Val × Except GError Unit
  | [] => ([], .ok ())
  | r :: rest =>
    match r with
    | .error err => ([], .error err)
    | .ok slot =>
      match tupleIntoCallArgs rest with
      | (slots, .ok _) => (slot :: slots, .ok ())
      | (_, .error err) => ([], .error err)

/-- The first element-conversion error of a host-side list, if any. -/
def firstConvError {α : Type} (intoSlot : α → GResult Val) : List α → Option GError
  | [] => none
  | x :: rest =>
    match intoSlot x with
    | .error err => some err
    | .ok _ => firstConvError intoSlot rest

/-- The first error among a list of already-evaluated conversion
results. -/
def firstErrAmong : List (GResult Val) → Option GError
  | [] => none
  | .error err :: _ => some err
  | .ok _ :: rest => firstErrAmong rest

/-- The successfully converted slots of a list of conversion results. -/
def okSlots : List (GResult Val) → List Val
  | [] => []
  | .ok slot :: rest => slot :: okSlots rest
  | .error _ :: rest => okSlots rest

/-- One wrapped parameter position, as the macro-generated `WrappedCall`
impl uses it: its `ArgType` plus the two steps of its extraction
strategy, `make_temp` (runs against the shared argument slice) and
`from_arg` (runs on the staged temporary after the slice is dropped).
`τ` is the `Temp` associated type, `ν` the projected native argument. -/
structure ParamSpec (τ ν : Type) where
  argType : ArgType
  makeTemp : List Val → Nat → GResult τ
  fromArg : τ → GResult ν

/-- The staging loop of `wrapped_call`: run `make_temp` for every
parameter in order against the shared argument slice, advancing the
argument index except at an `RGlobal` position, aborting at the first
error. -/
def stageAll {τ ν : Type} : List (ParamSpec τ ν) → List Val → Nat → GResult (List τ)
  | [], _, _ => .ok []
  | p :: ps, args, argI => do
    let temp ← p.makeTemp args argI
    let temps ← stageAll ps args (if p.argType = ArgType.RGlobal then argI else argI + 1)
    pure (temp :: temps)

/-- The projection loop of `wrapped_call`: run `from_arg` on every staged
temporary in order, aborting at the first error.  The argument slice is
no longer an input.  The length mismatch case cannot be reached from
`wrappedCall`, which stages one temporary per parameter. -/
def projectAll {τ ν : Type} : List (ParamSpec τ ν) → List τ → GResult (List ν)
  | [], _ => .ok []
  | _ :: _, [] => .error ⟨"missing staged temporary", none⟩
  | p :: ps, temp :: temps => do
    let v ← p.fromArg temp
    let vs ← projectAll ps temps
    pure (v :: vs)

/-- The message of the too-few-arguments bail in `wrapped_call`. -/
def tooFewMsg (received atLeast : Nat) : String :=
  "too few arguments: received " ++ toString received ++
    ", expected at least " ++ toString atLeast

/-- The message of the too-many-arguments bail in `wrapped_call`. -/
def tooManyMsg (received noMoreThan : Nat) : String :=
  "too many arguments: received " ++ toString received ++
    ", expected no more than " ++ toString noMoreThan

/-- `Wrapper::wrapped_call` from the source: check the argument count
against the cached arity bounds (too few first, then too many), then
stage every parameter against the shared slice, then drop the slice,
then project every staged temporary and invoke the native function `f`
(whose return conversion `output_into_slot` is folded into `f`). -/
def wrappedCall {τ ν : Type} (argLimits : Nat × Nat)
    (params : List (ParamSpec τ ν)) (f : List ν → GResult Val)
    (args : List Val) : GResult Val :=
  if args.length < argLimits.1 then
    .error ⟨tooFewMsg args.length argLimits.1, none⟩
  else if args.length > argLimits.2 then
    .error ⟨tooManyMsg args.length argLimits.2, none⟩
  else do
    let temps ← stageAll params args 0
    let vals ← projectAll params temps
    f vals

/-- `make_temp` of `impl FromArg for Rest`: clone the trailing argument
slots from position `i` onward (the source slices at
`min(i, args.len())`), and reserve an empty buffer for the converted
elements; no element conversion runs here. -/
def restMakeTemp (ν : Type) (args : List Val) (i : Nat) :
    GResult (List Val × Option (List ν)) :=
  .ok (args.drop (min i args.length), some [])

/-- `from_arg` of `impl FromArg for Rest`: convert every staged slot with
`from_slot`, pushing into the reserved buffer, aborting at the first
error; the resulting `Rest` collection is the filled buffer. -/
def restFromArg {ν : Type} (fromSlot : Val → GResult ν)
    (temp : List Val × Option (List ν)) : GResult (List ν) :=
  temp.1.mapM fromSlot

/-- The `Rest` parameter position as a `ParamSpec`, combining
`restMakeTemp` and `restFromArg`. -/
def restParam {ν : Type} (fromSlot : Val → GResult ν) :
    ParamSpec (List Val × Option (List ν)) (List ν) :=
  ⟨ArgType.Rest, restMakeTemp ν, restFromArg fromSlot⟩

/-- `make_temp` and `from_arg` of the blanket `impl FromArg for T where
T: FromVal`: clone the slot at `i`, then convert it with `from_slot`.
The source indexes `args[i]` unconditionally; the arity check keeps `i`
in bounds, and the out-of-bounds panic is modelled as an error. -/
def valParam {ν : Type} (fromSlot : Val → GResult ν) : ParamSpec Val ν :=
  ⟨ArgType.Normal,
   fun args i =>
     match args.get? i with
     | some slot => .ok slot
     | none => .error ⟨"argument index out of bounds", none⟩,
   fromSlot⟩

theorem argLimitsGo_rest_error (l : List ArgType) (req opt : Nat)
    (h : ArgType.Normal ∈ l ∨ ArgType.Option ∈ l) :
    ∃ msg, argLimitsGo l req opt true = .error msg := by
  induction l generalizing req opt with
  | nil => simp at h
  | cons a t ih =>
    cases a with
    | Normal => exact ⟨"Rest<T> followed by a normal argument", by simp [argLimitsGo]⟩
    | Option => exact ⟨"Rest<T> followed by an Option<T> argument", by simp [argLimitsGo]⟩
    | Rest =>
      have h2 : ArgType.Normal ∈ t ∨ ArgType.Option ∈ t := by
        rcases h with h | h
        · exact Or.inl (by simpa using h)
        · exact Or.inr (by simpa using h)
      simpa [argLimitsGo] using ih req opt h2
    | RGlobal =>
      have h2 : ArgType.Normal ∈ t ∨ ArgType.Option ∈ t := by
        rcases h with h | h
        · exact Or.inl (by simpa using h)
        · exact Or.inr (by simpa using h)
      simpa [argLimitsGo] using ih req opt h2

theorem argLimitsGo_through (l1 l2 : List ArgType) (req opt : Nat) (b : Bool) :
    (∃ msg, argLimitsGo (l1 ++ ArgType.Rest :: l2) req opt b = .error msg) ∨
    (∃ r2 o2, argLimitsGo (l1 ++ ArgType.Rest :: l2) req opt b =
      argLimitsGo l2 r2 o2 true) := by
  induction l1 generalizing req opt b with
  | nil => exact Or.inr ⟨req, opt, by simp [argLimitsGo]⟩
  | cons a t ih =>
    cases a with
    | Normal =>
      cases b with
      | true =>
        exact Or.inl ⟨"Rest<T> followed by a normal argument", by simp [argLimitsGo]⟩
      | false => simpa [argLimitsGo] using ih (req + opt + 1) 0 false
    | Option =>
      cases b with
      | true =>
        exact Or.inl ⟨"Rest<T> followed by an Option<T> argument", by simp [argLimitsGo]⟩
      | false => simpa [argLimitsGo] using ih req (opt + 1) false
    | Rest => simpa [argLimitsGo] using ih req opt true
    | RGlobal => simpa [argLimitsGo] using ih req opt b

theorem calculateArgLimits_rest_before (l1 l2 : List ArgType)
    (h : ArgType.Normal ∈ l2 ∨ ArgType.Option ∈ l2) :
    ∃ msg, calculateArgLimits (l1 ++ ArgType.Rest :: l2) = .error msg := by
  unfold calculateArgLimits
  rcases argLimitsGo_through l1 l2 0 0 false with ⟨msg, hm⟩ | ⟨r2, o2, he⟩
  · exact ⟨msg, hm⟩
  · rw [he]
    exact argLimitsGo_rest_error l2 r2 o2 h

/-- C1 counterexample: the claim asserts that wrapping a function with
parameter kinds [Required, Optional, Required] fails at construction and
that every list with a Rest kind in non-final position is rejected.  The
arity calculator instead accepts [Required, Optional, Required] with
bounds (3, 3) — the Required parameter absorbs the preceding Optional
into the required count — and accepts [Rest, Rest], a Rest in non-final
position, with bounds (0, unbounded). -/
theorem c1_counterexample :
    calculateArgLimits [ArgType.Normal, ArgType.Option, ArgType.Normal] =
      .ok (3, 3) ∧
    calculateArgLimits [ArgType.Rest, ArgType.Rest] = .ok (0, usizeMax) :=
  ⟨rfl, rfl⟩

/-- C1 (amended): [Rest, Required] fails at construction with the error
message of `arg_limits_fn`; a Rest kind followed anywhere later by a
Required or an Optional kind is always rejected; but a parameter list
[Required, Optional, Required] is accepted with bounds (3, 3), the
Optional being absorbed into the required count, and a Rest followed
only by further Rest or AmbientGlobal kinds is accepted as well. -/
theorem c1_illegal_ordering :
    calculateArgLimits [ArgType.Rest, ArgType.Normal] =
      .error "Rest<T> followed by a normal argument" ∧
    calculateArgLimits [ArgType.Normal, ArgType.Option, ArgType.Normal] =
      .ok (3, 3) ∧
    ∀ l1 l2 : List ArgType, ArgType.Normal ∈ l2 ∨ ArgType.Option ∈ l2 →
      ∃ msg, calculateArgLimits (l1 ++ ArgType.Rest :: l2) = .error msg :=
  ⟨rfl, rfl, calculateArgLimits_rest_before⟩

/-- C1 witness: the general rejection clause applied at the concrete
list [Required, Rest, Optional]. -/
theorem c1_illegal_ordering_witness :
    ∃ msg, calculateArgLimits
      ([ArgType.Normal] ++ ArgType.Rest :: [ArgType.Option]) = .error msg :=
  c1_illegal_ordering.2.2 [ArgType.Normal] [ArgType.Option]
    (Or.inr (by simp))

theorem argLimitsGo_replicate_normal (r : Nat) (t : List ArgType) (req : Nat) :
    argLimitsGo (List.replicate r ArgType.Normal ++ t) req 0 false =
    argLimitsGo t (req + r) 0 false := by
  induction r generalizing req with
  | zero => simp
  | succ n ih =>
    rw [List.replicate_succ, List.cons_append]
    rw [show argLimitsGo (ArgType.Normal :: (List.replicate n ArgType.Normal ++ t)) req 0 false
        = argLimitsGo (List.replicate n ArgType.Normal ++ t) (req + 0 + 1) 0 false from rfl]
    rw [ih (req + 0 + 1)]
    have h : req + 0 + 1 + n = req + (n + 1) := by omega
    rw [h]

theorem argLimitsGo_replicate_option (o : Nat) (t : List ArgType) (req opt : Nat) :
    argLimitsGo (List.replicate o ArgType.Option ++ t) req opt false =
    argLimitsGo t req (opt + o) false := by
  induction o generalizing opt with
  | zero => simp
  | succ n ih =>
    rw [List.replicate_succ, List.cons_append]
    rw [show argLimitsGo (ArgType.Option :: (List.replicate n ArgType.Option ++ t)) req opt false
        = argLimitsGo (List.replicate n ArgType.Option ++ t) req (opt + 1) false from rfl]
    rw [ih (opt + 1)]
    have h : opt + 1 + n = opt + (n + 1) := by omega
    rw [h]

theorem argLimitsGo_filter_rglobal (l : List ArgType) (req opt : Nat) (b : Bool) :
    argLimitsGo (l.filter (fun a => a != ArgType.RGlobal)) req opt b =
    argLimitsGo l req opt b := by
  induction l generalizing req opt b with
  | nil => rfl
  | cons a t ih =>
    cases a with
    | RGlobal => simpa [List.filter, argLimitsGo] using ih req opt b
    | Normal =>
      cases b with
      | true => simp [List.filter, argLimitsGo]
      | false => simpa [List.filter, argLimitsGo] using ih (req + opt + 1) 0 false
    | Option =>
      cases b with
      | true => simp [List.filter, argLimitsGo]
      | false => simpa [List.filter, argLimitsGo] using ih req (opt + 1) false
    | Rest => simpa [List.filter, argLimitsGo] using ih req opt true

/-- C2: for a legally ordered parameter list of r Required kinds, then o
Optional kinds, then an optional trailing Rest, the computed bounds are
(r, r + o) without Rest and (r, unbounded) with it, the unbounded
maximum being the `usize::MAX` sentinel; and AmbientGlobal kinds
contribute to neither bound — deleting them from any parameter list
leaves the computed limits unchanged. -/
theorem c2_arity_law :
    (∀ (r o : Nat) (hasRest : Bool),
      calculateArgLimits (List.replicate r ArgType.Normal ++
        List.replicate o ArgType.Option ++
        (if hasRest then [ArgType.Rest] else [])) =
      .ok (r, if hasRest then usizeMax else r + o)) ∧
    (∀ l : List ArgType,
      calculateArgLimits (l.filter (fun a => a != ArgType.RGlobal)) =
      calculateArgLimits l) := by
  constructor
  · intro r o hasRest
    unfold calculateArgLimits
    rw [List.append_assoc]
    rw [argLimitsGo_replicate_normal r _ 0]
    rw [argLimitsGo_replicate_option o _ (0 + r) 0]
    cases hasRest with
    | true => simp [argLimitsGo]
    | false => simp [argLimitsGo]
  · intro l
    unfold calculateArgLimits
    exact argLimitsGo_filter_rglobal l 0 0 false

/-- C4: converting a representable native value to a dynamic value and
back returns the original value, for the runtime-width integer i32, the
narrower integers i8, i16, u8 and u16 (whose own ranges bound the
representable values), bool, char, Sym and f32. -/
theorem c4_roundtrip :
    (∀ x : Int, i32Min ≤ x ∧ x ≤ i32Max →
      (smallIntIntoVal x).bind i32FromVal = .ok x) ∧
    (∀ x : Int, -128 ≤ x ∧ x ≤ 127 →
      (smallIntIntoVal x).bind i8FromVal = .ok x) ∧
    (∀ x : Int, -32768 ≤ x ∧ x ≤ 32767 →
      (smallIntIntoVal x).bind i16FromVal = .ok x) ∧
    (∀ x : Int, 0 ≤ x ∧ x ≤ 255 →
      (smallIntIntoVal x).bind u8FromVal = .ok x) ∧
    (∀ x : Int, 0 ≤ x ∧ x ≤ 65535 →
      (smallIntIntoVal x).bind u16FromVal = .ok x) ∧
    (∀ b : Bool, (boolIntoVal b).bind boolFromVal = .ok b) ∧
    (∀ c : Char, (charIntoVal c).bind charFromVal = .ok c) ∧
    (∀ sym : GSym, (symIntoVal sym).bind symFromVal = .ok sym) ∧
    (∀ f : F32, (f32IntoVal f).bind f32FromVal = .ok f) := by
  refine ⟨?_, ?_, ?_, ?_, ?_, fun _ => rfl, fun _ => rfl, fun _ => rfl, fun _ => rfl⟩
  · intro x h
    simp [smallIntIntoVal, i32FromVal, fromValIntWiden, Except.bind]
  · intro x h
    simp [smallIntIntoVal, i8FromVal, fromValIntRange, Except.bind, h.1, h.2]
  · intro x h
    simp [smallIntIntoVal, i16FromVal, fromValIntRange, Except.bind, h.1, h.2]
  · intro x h
    simp [smallIntIntoVal, u8FromVal, fromValIntRange, Except.bind, h.1, h.2]
  · intro x h
    simp [smallIntIntoVal, u16FromVal, fromValIntRange, Except.bind, h.1, h.2]

/-- C4 witness: the round trip at concrete representable values of each
integer width. -/
theorem c4_roundtrip_witness :
    (smallIntIntoVal 100000).bind i32FromVal = .ok 100000 ∧
    (smallIntIntoVal (-100)).bind i8FromVal = .ok (-100) ∧
    (smallIntIntoVal (-30000)).bind i16FromVal = .ok (-30000) ∧
    (smallIntIntoVal 255).bind u8FromVal = .ok 255 ∧
    (smallIntIntoVal 65535).bind u16FromVal = .ok 65535 :=
  ⟨c4_roundtrip.1 100000 (by decide),
   c4_roundtrip.2.1 (-100) (by decide),
   c4_roundtrip.2.2.1 (-30000) (by decide),
   c4_roundtrip.2.2.2.1 255 (by decide),
   c4_roundtrip.2.2.2.2.1 65535 (by decide)⟩

/-- C5: integer conversions never silently truncate.  A native
i64/i128/isize/u32/u64/u128/usize value converts into a dynamic value
exactly when it lies in the i32 range, erring otherwise with the range
message; extracting a dynamic integer into a narrower width fails
outside the target range, and into an unsigned width fails for negative
values; the sole truncating exception, native f64 into the runtime f32,
always succeeds, dropping the extra precision. -/
theorem c5_no_silent_truncation :
    (∀ x : Int, i32Min ≤ x ∧ x ≤ i32Max → boundedIntIntoVal x = .ok (Val.Int x)) ∧
    (∀ x : Int, ¬(i32Min ≤ x ∧ x ≤ i32Max) →
      boundedIntIntoVal x = .error ⟨intoValRangeMsg x, none⟩) ∧
    (∀ i : Int, ¬(-128 ≤ i ∧ i ≤ 127) → i8FromVal (Val.Int i) =
      .error ⟨"expected i8, received an int with value " ++ toString i, none⟩) ∧
    (∀ i : Int, ¬(-32768 ≤ i ∧ i ≤ 32767) → i16FromVal (Val.Int i) =
      .error ⟨"expected i16, received an int with value " ++ toString i, none⟩) ∧
    (∀ i : Int, ¬(0 ≤ i ∧ i ≤ 255) → u8FromVal (Val.Int i) =
      .error ⟨"expected u8, received an int with value " ++ toString i, none⟩) ∧
    (∀ i : Int, ¬(0 ≤ i ∧ i ≤ 65535) → u16FromVal (Val.Int i) =
      .error ⟨"expected u16, received an int with value " ++ toString i, none⟩) ∧
    (∀ i : Int, i < 0 → u32FromVal (Val.Int i) =
      .error ⟨"expected u32, received an int with value " ++ toString i, none⟩) ∧
    (∀ i : Int, i < 0 → u64FromVal (Val.Int i) =
      .error ⟨"expected u64, received an int with value " ++ toString i, none⟩) ∧
    (∀ i : Int, i < 0 → u128FromVal (Val.Int i) =
      .error ⟨"expected u128, received an int with value " ++ toString i, none⟩) ∧
    (∀ i : Int, i < 0 → usizeFromVal (Val.Int i) =
      .error ⟨"expected usize, received an int with value " ++ toString i, none⟩) ∧
    (∀ x : F64, f64IntoVal x = .ok (Val.Flo x.toF32)) := by
  refine ⟨?_, ?_, ?_, ?_, ?_, ?_, ?_, ?_, ?_, ?_, fun _ => rfl⟩
  · intro x h
    simp [boundedIntIntoVal, h.1, h.2]
  · intro x h
    simp [boundedIntIntoVal, h]
  · intro i h
    simp [i8FromVal, fromValIntRange, h]
  · intro i h
    simp [i16FromVal, fromValIntRange, h]
  · intro i h
    simp [u8FromVal, fromValIntRange, h]
  · intro i h
    simp [u16FromVal, fromValIntRange, h]
  · intro i h
    have h2 : ¬(0 ≤ i) := by omega
    simp [u32FromVal, fromValIntNonNeg, h2]
  · intro i h
    have h2 : ¬(0 ≤ i) := by omega
    simp [u64FromVal, fromValIntNonNeg, h2]
  · intro i h
    have h2 : ¬(0 ≤ i) := by omega
    simp [u128FromVal, fromValIntNonNeg, h2]
  · intro i h
    have h2 : ¬(0 ≤ i) := by omega
    simp [usizeFromVal, fromValIntNonNeg, h2]

/-- C5 witness: an out-of-range i64 value 4294967296 is rejected, an
in-range value 7 converts, extracting 300 into i8 fails its range check
and extracting -1 into u32 fails the sign check. -/
theorem c5_no_silent_truncation_witness :
    boundedIntIntoVal 4294967296 = .error ⟨intoValRangeMsg 4294967296, none⟩ ∧
    boundedIntIntoVal 7 = .ok (Val.Int 7) ∧
    i8FromVal (Val.Int 300) =
      .error ⟨"expected i8, received an int with value 300", none⟩ ∧
    u32FromVal (Val.Int (-1)) =
      .error ⟨"expected u32, received an int with value -1", none⟩ := by
  refine ⟨?_, ?_, ?_, ?_⟩
  · have h := c5_no_silent_truncation.2.1 4294967296 (by decide)
    simpa using h
  · exact c5_no_silent_truncation.1 7 (by decide)
  · have h := c5_no_silent_truncation.2.2.1 300 (by decide)
    simpa using h
  · have h := c5_no_silent_truncation.2.2.2.2.2.2.1 (-1) (by decide)
    simpa using h

/-- C6: a native `Result` whose error is already the runtime error type
is propagated completely unchanged; every other error type is wrapped
into a failed result whose description names the native type and which
carries the original error as its source; an `Ok` delegates to the inner
conversion. -/
theorem c6_result_error_conversion {α : Type} (innerIntoVal : α → GResult Val) :
    (∀ gErr : GError,
      resultIntoVal innerIntoVal (.error (.g gErr)) = .error gErr) ∧
    (∀ tyName payload : String,
      resultIntoVal innerIntoVal (.error (.foreign tyName payload)) =
        .error ⟨"IntoVal encountered " ++ tyName, some ⟨tyName, payload⟩⟩) ∧
    (∀ a : α, resultIntoVal innerIntoVal (.ok a) = innerIntoVal a) :=
  ⟨fun _ => rfl, fun _ _ => rfl, fun _ => rfl⟩

/-- C10: extraction performs no coercion between the integer and float
representations.  Every integer extraction from a `Flo` fails with the
type-mismatch message naming the expected native type and the actual
dynamic type, every f32/f64 extraction from an `Int` fails likewise, and
the exact matching variant succeeds. -/
theorem c10_no_numeric_coercion :
    (∀ f : F32,
      i32FromVal (Val.Flo f) = .error ⟨"expected i32, received a flo", none⟩ ∧
      i64FromVal (Val.Flo f) = .error ⟨"expected i64, received a flo", none⟩ ∧
      i128FromVal (Val.Flo f) = .error ⟨"expected i128, received a flo", none⟩ ∧
      isizeFromVal (Val.Flo f) = .error ⟨"expected isize, received a flo", none⟩ ∧
      i8FromVal (Val.Flo f) = .error ⟨"expected i8, received a flo", none⟩ ∧
      i16FromVal (Val.Flo f) = .error ⟨"expected i16, received a flo", none⟩ ∧
      u8FromVal (Val.Flo f) = .error ⟨"expected u8, received a flo", none⟩ ∧
      u16FromVal (Val.Flo f) = .error ⟨"expected u16, received a flo", none⟩ ∧
      u32FromVal (Val.Flo f) = .error ⟨"expected u32, received a flo", none⟩ ∧
      u64FromVal (Val.Flo f) = .error ⟨"expected u64, received a flo", none⟩ ∧
      u128FromVal (Val.Flo f) = .error ⟨"expected u128, received a flo", none⟩ ∧
      usizeFromVal (Val.Flo f) = .error ⟨"expected usize, received a flo", none⟩) ∧
    (∀ i : Int,
      f32FromVal (Val.Int i) = .error ⟨"expected f32, received an int", none⟩ ∧
      f64FromVal (Val.Int i) = .error ⟨"expected f64, received an int", none⟩) ∧
    (∀ i : Int, i32FromVal (Val.Int i) = .ok i) ∧
    (∀ f : F32, f32FromVal (Val.Flo f) = .ok f ∧
      f64FromVal (Val.Flo f) = .ok f.toF64) :=
  ⟨fun _ => ⟨rfl, rfl, rfl, rfl, rfl, rfl, rfl, rfl, rfl, rfl, rfl, rfl⟩,
   fun _ => ⟨rfl, rfl⟩, fun _ => rfl, fun _ => ⟨rfl, rfl⟩⟩

theorem except_bind_ok {ε α β : Type} (a : α) (f : α → Except ε β) :
    (Except.ok a : Except ε α) >>= f = f a := rfl

theorem mapFromSlots_hits_acc {κ ν : Type} [DecidableEq κ]
    (kf : Val → GResult κ) (vf : Val → GResult ν) (dupMsg : String) (n : κ) :
    ∀ (l2 : List (Val × Val)) (kb vb : Val) (l3 : List (Val × Val))
      (acc : List (κ × ν)),
      kf kb = .ok n →
      (∀ p ∈ l2, (∃ k, kf p.1 = .ok k) ∧ (∃ v, vf p.2 = .ok v)) →
      (∃ v, vf vb = .ok v) →
      (∃ q ∈ acc, q.1 = n) →
      mapFromSlots kf vf dupMsg (l2 ++ (kb, vb) :: l3) acc = .error ⟨dupMsg, none⟩ := by
  intro l2
  induction l2 with
  | nil =>
    intro kb vb l3 acc hkb _ hvb hacc
    obtain ⟨v, hv⟩ := hvb
    have hfind : ((acc.find? (fun p => p.1 == n)).isSome : Bool) := by
      rw [List.find?_isSome]
      obtain ⟨q, hq, hq1⟩ := hacc
      exact ⟨q, hq, by simp [hq1]⟩
    simp [mapFromSlots, hkb, hv, except_bind_ok, hfind]
  | cons hd t ih =>
    intro kb vb l3 acc hkb hall hvb hacc
    obtain ⟨⟨k0, hk0⟩, ⟨v0, hv0⟩⟩ := hall hd (by simp)
    cases hd with
    | mk hd1 hd2 =>
      by_cases hf : ((acc.find? (fun p => p.1 == k0)).isSome : Bool)
      · simp [mapFromSlots, hk0, hv0, except_bind_ok, hf]
      · have step : mapFromSlots kf vf dupMsg (((hd1, hd2) :: t) ++ (kb, vb) :: l3) acc =
            mapFromSlots kf vf dupMsg (t ++ (kb, vb) :: l3) (acc ++ [(k0, v0)]) := by
          simp [mapFromSlots, hk0, hv0, except_bind_ok, hf]
        rw [step]
        apply ih kb vb l3 (acc ++ [(k0, v0)]) hkb
          (fun p hp => hall p (List.mem_cons_of_mem _ hp)) hvb
        obtain ⟨q, hq, hq1⟩ := hacc
        exact ⟨q, by simp [hq], hq1⟩

theorem mapFromSlots_reaches_first {κ ν : Type} [DecidableEq κ]
    (kf : Val → GResult κ) (vf : Val → GResult ν) (dupMsg : String) (n : κ) :
    ∀ (l1 : List (Val × Val)) (ka va : Val) (l2 : List (Val × Val))
      (kb vb : Val) (l3 : List (Val × Val)) (acc : List (κ × ν)),
      kf ka = .ok n → kf kb = .ok n →
      (∀ p ∈ l1 ++ (ka, va) :: l2 ++ (kb, vb) :: l3,
        (∃ k, kf p.1 = .ok k) ∧ (∃ v, vf p.2 = .ok v)) →
      mapFromSlots kf vf dupMsg (l1 ++ (ka, va) :: l2 ++ (kb, vb) :: l3) acc =
        .error ⟨dupMsg, none⟩ := by
  intro l1
  induction l1 with
  | nil =>
    intro ka va l2 kb vb l3 acc hka hkb hall
    obtain ⟨_, ⟨va0, hva⟩⟩ := hall (ka, va) (by simp)
    by_cases hf : ((acc.find? (fun p => p.1 == n)).isSome : Bool)
    · simp [mapFromSlots, hka, hva, except_bind_ok, hf]
    · have step : mapFromSlots kf vf dupMsg ([] ++ (ka, va) :: l2 ++ (kb, vb) :: l3) acc =
          mapFromSlots kf vf dupMsg (l2 ++ (kb, vb) :: l3) (acc ++ [(n, va0)]) := by
        simp [mapFromSlots, hka, hva, except_bind_ok, hf]
      rw [step]
      apply mapFromSlots_hits_acc kf vf dupMsg n l2 kb vb l3 (acc ++ [(n, va0)]) hkb
        (fun p hp => hall p (by simp [hp]))
        ((hall (kb, vb) (by simp)).2)
      exact ⟨(n, va0), by simp, rfl⟩
  | cons hd t ih =>
    intro ka va l2 kb vb l3 acc hka hkb hall
    obtain ⟨⟨k0, hk0⟩, ⟨v0, hv0⟩⟩ := hall hd (by simp)
    cases hd with
    | mk hd1 hd2 =>
      by_cases hf : ((acc.find? (fun p => p.1 == k0)).isSome : Bool)
      · simp [mapFromSlots, hk0, hv0, except_bind_ok, hf]
      · have step : mapFromSlots kf vf dupMsg
            (((hd1, hd2) :: t) ++ (ka, va) :: l2 ++ (kb, vb) :: l3) acc =
            mapFromSlots kf vf dupMsg (t ++ (ka, va) :: l2 ++ (kb, vb) :: l3)
              (acc ++ [(k0, v0)]) := by
          simp [mapFromSlots, hk0, hv0, except_bind_ok, hf]
        rw [step]
        exact ih ka va l2 kb vb l3 (acc ++ [(k0, v0)]) hka hkb
          (fun p hp => hall p (List.mem_cons_of_mem _ hp))

/-- C7: a dynamic table holding two distinct dynamic keys that both
convert to the same native key fails to extract into a native map with
the dedicated duplicate-key error of the respective impl, wherever in
the iteration order the two keys sit (every conversion of the table is
assumed to succeed, so no earlier conversion error can pre-empt the
duplicate check). -/
theorem c7_duplicate_key {κ ν : Type} [DecidableEq κ]
    (kf : Val → GResult κ) (vf : Val → GResult ν)
    (entries l1 l2 l3 : List (Val × Val)) (ka va kb vb : Val) (n : κ)
    (hsplit : entries = l1 ++ (ka, va) :: l2 ++ (kb, vb) :: l3)
    (_hne : ka ≠ kb)
    (hka : kf ka = .ok n) (hkb : kf kb = .ok n)
    (hall : ∀ p ∈ entries, (∃ k, kf p.1 = .ok k) ∧ (∃ v, vf p.2 = .ok v)) :
    hashMapFromVal kf vf (Val.Tab entries) =
      .error ⟨"duplicate key in HashMap argument", none⟩ ∧
    btreeMapFromVal kf vf (Val.Tab entries) =
      .error ⟨"duplicate key in BTreeMap argument", none⟩ := by
  subst hsplit
  exact ⟨mapFromSlots_reaches_first kf vf _ n l1 ka va l2 kb vb l3 [] hka hkb hall,
    mapFromSlots_reaches_first kf vf _ n l1 ka va l2 kb vb l3 [] hka hkb hall⟩

/-- C7 witness: a table whose keys are the int 5 and the bool true, with
a key conversion sending every slot to the native key 5, is rejected by
both map extractions with their duplicate-key errors. -/
theorem c7_duplicate_key_witness :
    hashMapFromVal (fun _ => (.ok 5 : GResult Int)) (fun _ => (.ok 0 : GResult Int))
      (Val.Tab [(Val.Int 5, Val.Nil), (Val.Bool true, Val.Nil)]) =
      .error ⟨"duplicate key in HashMap argument", none⟩ ∧
    btreeMapFromVal (fun _ => (.ok 5 : GResult Int)) (fun _ => (.ok 0 : GResult Int))
      (Val.Tab [(Val.Int 5, Val.Nil), (Val.Bool true, Val.Nil)]) =
      .error ⟨"duplicate key in BTreeMap argument", none⟩ :=
  c7_duplicate_key (fun _ => .ok 5) (fun _ => .ok 0)
    [(Val.Int 5, Val.Nil), (Val.Bool true, Val.Nil)] [] [] []
    (Val.Int 5) Val.Nil (Val.Bool true) Val.Nil 5
    rfl (fun h => Val.noConfusion h) rfl rfl
    (fun _ _ => ⟨⟨5, rfl⟩, ⟨0, rfl⟩⟩)

theorem sliceIntoCallArgsGo_spec {α : Type} (intoSlot : α → GResult Val) :
    ∀ (xs : List α) (res : Except GError Unit),
      (sliceIntoCallArgsGo intoSlot xs res).1.length = xs.length ∧
      (sliceIntoCallArgsGo intoSlot xs res).2 =
        (match res with
         | .error e0 => .error e0
         | .ok _ =>
           match firstConvError intoSlot xs with
           | some e => .error e
           | none => .ok ()) := by
  intro xs
  induction xs with
  | nil =>
    intro res
    cases res <;> simp [sliceIntoCallArgsGo, firstConvError]
  | cons x t ih =>
    intro res
    cases hx : intoSlot x with
    | ok s =>
      refine ⟨?_, ?_⟩
      · simp [sliceIntoCallArgsGo, hx, (ih res).1]
      · cases res with
        | error e0 =>
          simp [sliceIntoCallArgsGo, hx, (ih (.error e0)).2, firstConvError]
        | ok u =>
          simp [sliceIntoCallArgsGo, hx, (ih (.ok u)).2, firstConvError]
    | error e =>
      cases res with
      | ok u =>
        refine ⟨?_, ?_⟩
        · simp [sliceIntoCallArgsGo, hx, (ih (.error e)).1]
        · simp [sliceIntoCallArgsGo, hx, (ih (.error e)).2, firstConvError]
      | error e0 =>
        refine ⟨?_, ?_⟩
        · simp [sliceIntoCallArgsGo, hx, (ih (.error e0)).1]
        · simp [sliceIntoCallArgsGo, hx, (ih (.error e0)).2, firstConvError]

/-- C8 counterexample: the claim asserts that for every supported
argument-list shape, tuples included, elements after the first failing
one are still visited with a nil placeholder so that the destination
receives exactly one slot per element.  For a three-element tuple whose
middle element is an i64 out of the i32 range, the tuple impl instead
short-circuits: the destination receives no slots at all. -/
theorem c8_counterexample :
    tupleIntoCallArgs
      [boundedIntIntoVal 5, boundedIntIntoVal 4294967296, boundedIntIntoVal 7] =
      ([], .error ⟨intoValRangeMsg 4294967296, none⟩) := by
  have h5 : boundedIntIntoVal 5 = .ok (Val.Int 5) := rfl
  have hbig : boundedIntIntoVal 4294967296 =
      .error ⟨intoValRangeMsg 4294967296, none⟩ := by
    have hc : ¬(i32Min ≤ (4294967296 : Int) ∧ (4294967296 : Int) ≤ i32Max) := by decide
    simp [boundedIntIntoVal, hc]
  have h7 : boundedIntIntoVal 7 = .ok (Val.Int 7) := rfl
  simp [tupleIntoCallArgs, h5, hbig, h7]

/-- C8 (amended): the slice, fixed-array and Rest argument-list adapters
visit every element, write a nil placeholder for each failing one so the
destination receives exactly one slot per element, and return the first
conversion error; the tuple adapters instead stop at the first failing
element, return its error, and write nothing at all to the destination
(on success every slot is written). -/
theorem c8_into_call_args :
    (∀ (α : Type) (intoSlot : α → GResult Val) (xs : List α),
      (sliceIntoCallArgs intoSlot xs).1.length = xs.length ∧
      (sliceIntoCallArgs intoSlot xs).2 =
        (match firstConvError intoSlot xs with
         | some e => .error e
         | none => .ok ())) ∧
    (∀ rs : List (GResult Val),
      tupleIntoCallArgs rs =
        (match firstErrAmong rs with
         | some e => ([], .error e)
         | none => (okSlots rs, .ok ()))) := by
  constructor
  · intro α intoSlot xs
    exact sliceIntoCallArgsGo_spec intoSlot xs (.ok ())
  · intro rs
    induction rs with
    | nil => rfl
    | cons r rest ih =>
      cases r with
      | error e => rfl
      | ok s =>
        cases hfe : firstErrAmong rest with
        | some e => simp [tupleIntoCallArgs, ih, hfe, firstErrAmong, okSlots]
        | none => simp [tupleIntoCallArgs, ih, hfe, firstErrAmong, okSlots]

theorem tooFew_ne_tooMany (a b c d : Nat) : tooFewMsg a b ≠ tooManyMsg c d := by
  intro h
  have h1 : (tooFewMsg a b).data = (tooManyMsg c d).data := congrArg String.data h
  unfold tooFewMsg tooManyMsg at h1
  simp only [String.data_append, List.append_assoc] at h1
  have h2 := congrArg (List.take 8) h1
  rw [List.take_append_of_le_length (by decide),
    List.take_append_of_le_length (by decide)] at h2
  revert h2
  decide

/-- C3: a wrapped call with fewer arguments than the cached minimum
fails with the too-few error carrying the received count and the
minimum; with more than a bounded maximum (and at least the minimum) it
fails with the too-many error carrying the received count and the
maximum; the two errors are distinct for every pair of counts; and the
bounds check precedes staging and extraction — the failure is the same
for every parameter list and native function, so no staging ever
influences it. -/
theorem c3_arity_bounds_check (τ ν : Type) (argLimits : Nat × Nat)
    (params : List (ParamSpec τ ν)) (f : List ν → GResult Val) (args : List Val) :
    (args.length < argLimits.1 →
      wrappedCall argLimits params f args =
        .error ⟨tooFewMsg args.length argLimits.1, none⟩) ∧
    (argLimits.1 ≤ args.length → argLimits.2 < args.length →
      wrappedCall argLimits params f args =
        .error ⟨tooManyMsg args.length argLimits.2, none⟩) ∧
    (∀ a b c d : Nat, tooFewMsg a b ≠ tooManyMsg c d) := by
  refine ⟨?_, ?_, tooFew_ne_tooMany⟩
  · intro h
    simp [wrappedCall, h]
  · intro hmin hmax
    have h1 : ¬(args.length < argLimits.1) := by omega
    have h2 : argLimits.2 < args.length := hmax
    simp [wrappedCall, h1, h2]

/-- C3 witness: a wrapper with bounds (2, 3) rejects an empty argument
list as too few and a four-element list as too many, whatever its
parameters would stage. -/
theorem c3_arity_bounds_check_witness :
    wrappedCall (2, 3) ([] : List (ParamSpec Val Val)) (fun _ => .ok Val.Nil) [] =
      .error ⟨tooFewMsg 0 2, none⟩ ∧
    wrappedCall (2, 3) ([] : List (ParamSpec Val Val)) (fun _ => .ok Val.Nil)
      [Val.Nil, Val.Nil, Val.Nil, Val.Nil] =
      .error ⟨tooManyMsg 4 3, none⟩ :=
  ⟨(c3_arity_bounds_check Val Val (2, 3) [] (fun _ => .ok Val.Nil) []).1
      (by decide),
   (c3_arity_bounds_check Val Val (2, 3) [] (fun _ => .ok Val.Nil)
      [Val.Nil, Val.Nil, Val.Nil, Val.Nil]).2.1 (by decide) (by decide)⟩

/-- C9: the staging step of the Rest kind only clones the trailing
argument slots and reserves an empty buffer — it never converts an
element and never fails — and the wrapped call reads the argument slice
only through its length and the staged temporaries: two argument slices
of equal length that stage identically produce identical call results
for every parameter list and native function, which is the observable
content of releasing the shared argument borrow before projection,
element conversion and the native body run. -/
theorem c9_staging_releases_args (τ ν : Type) :
    (∀ (ν2 : Type) (args : List Val) (i : Nat),
      restMakeTemp ν2 args i = .ok (args.drop i, some ([] : List ν2))) ∧
    (∀ (argLimits : Nat × Nat) (params : List (ParamSpec τ ν))
        (f : List ν → GResult Val) (args args2 : List Val),
      args.length = args2.length →
      stageAll params args 0 = stageAll params args2 0 →
      wrappedCall argLimits params f args = wrappedCall argLimits params f args2) := by
  constructor
  · intro ν2 args i
    unfold restMakeTemp
    rcases le_total i args.length with h | h
    · rw [min_eq_left h]
    · rw [min_eq_right h]
      rw [List.drop_length]
      rw [List.drop_eq_nil_of_le h]
  · intro argLimits params f args args2 hlen hstage
    unfold wrappedCall
    rw [hlen, hstage]

/-- C9 witness: the Rest staging of a concrete two-slot argument list at
position 1 clones the trailing slot without converting it, and two
different one-slot argument lists that stage identically yield the same
call result. -/
theorem c9_staging_releases_args_witness :
    restMakeTemp Int [Val.Int 1, Val.Int 2] 1 =
      .ok ([Val.Int 2], some ([] : List Int)) ∧
    wrappedCall (0, 5) ([] : List (ParamSpec Val Val)) (fun _ => .ok Val.Nil)
        [Val.Int 1] =
      wrappedCall (0, 5) ([] : List (ParamSpec Val Val)) (fun _ => .ok Val.Nil)
        [Val.Int 2] :=
  ⟨(c9_staging_releases_args Val Val).1 Int [Val.Int 1, Val.Int 2] 1,
   (c9_staging_releases_args Val Val).2 (0, 5) [] (fun _ => .ok Val.Nil)
      [Val.Int 1] [Val.Int 2] rfl rfl⟩
